import Mathlib

/-!
Verification development for the Elite Document Polisher
(`scripts/apply_brand.py`).  The Python source is shallowly embedded:
pure helper functions become Lean functions, the document-rebuild loop
becomes a structural recursion over the list of source body blocks, and
machine floats (`int(base * 0.9)` and friends) are modelled as exact
rational/natural arithmetic with explicit floor division.
-/

namespace Polisher

/-! ## Python string helpers, modelled on lists of characters -/

/-- Python whitespace characters stripped by `str.strip()`. -/
def isSpaceChar (c : Char) : Bool :=
  c == ' ' || c == '\t' || c == '\n' || c == '\r' || c == '\x0b' || c == '\x0c'

/-- Model of `str.strip()` on a character list: drop whitespace from both ends. -/
def pyStripL (l : List Char) : List Char :=
  ((l.dropWhile isSpaceChar).reverse.dropWhile isSpaceChar).reverse

/-- Model of `str.strip()` on a string. -/
def pyStrip (s : String) : String := String.mk (pyStripL s.data)

/-- Model of `pat` is a leading segment of `l` (Python `str.startswith`). -/
def charListBegins : List Char → List Char → Bool
  | _, [] => true
  | [], _ :: _ => false
  | c :: cs, d :: ds => c == d && charListBegins cs ds

/-- Model of `s.startswith(pat)`. -/
def strBegins (s pat : String) : Bool := charListBegins s.data pat.data

/-- Model of `pat in l` for character lists (Python substring containment). -/
def hasSub (pat : List Char) : List Char → Bool
  | [] => pat.isEmpty
  | c :: cs => charListBegins (c :: cs) pat || hasSub pat cs

/-- Model of `pat in s` (Python substring containment on strings). -/
def strHas (s pat : String) : Bool := hasSub pat.data s.data

/-- ASCII `str.lower()`, one character. -/
def lowerChar (c : Char) : Char :=
  if 'A' ≤ c ∧ c ≤ 'Z' then Char.ofNat (c.toNat + 32) else c

/-- Model of `str.lower()` on a string (ASCII model). -/
def pyLower (s : String) : String := String.mk (s.data.map lowerChar)

/-- Model of `s.endswith(pat)`. -/
def strEnds (s pat : String) : Bool :=
  charListBegins s.data.reverse pat.data.reverse

/-- Value of one hexadecimal digit (`int(c, 16)`); invalid digits map to 0,
a case `hex_to_rgb` never meets on the well-formed `#RRGGBB` strings of the
brand registry. -/
def hexVal (c : Char) : Nat :=
  if '0' ≤ c ∧ c ≤ '9' then c.toNat - 48
  else if 'a' ≤ c ∧ c ≤ 'f' then c.toNat - 87
  else if 'A' ≤ c ∧ c ≤ 'F' then c.toNat - 55
  else 0

/-- Model of `hex_color.lstrip('#')`: drop every leading `#`. -/
def stripHash (s : String) : String := String.mk (s.data.dropWhile (· == '#'))

/-- Model of `hex_to_rgb`: parse `#RRGGBB` into an RGB triple. -/
def hexToRgb (s : String) : Nat × Nat × Nat :=
  let d := (stripHash s).data
  (hexVal (d.getD 0 '0') * 16 + hexVal (d.getD 1 '0'),
   hexVal (d.getD 2 '0') * 16 + hexVal (d.getD 3 '0'),
   hexVal (d.getD 4 '0') * 16 + hexVal (d.getD 5 '0'))

/-! ## Quality validation data model (`QualityLevel`, `QualityIssue`) -/

/-- Model of `QualityLevel` enumeration from the validator. -/
inductive QualityLevel where
  | perfect
  | acceptable
  | needs_attention
  | failed
deriving DecidableEq, Repr

/-- Model of `QualityIssue` dataclass: category, severity (`critical`/`warning`/`info`),
message, location, and whether the issue was auto-fixed. -/
structure QualityIssue where
  category : String
  severity : String
  message : String
  location : String
  auto_fixed : Bool := false
deriving DecidableEq, Repr

/-- The quality-level rule at the end of `QualityValidator.validate_document`:
count un-auto-fixed critical and warning issues and pick the level. -/
def determineQuality (issues : List QualityIssue) : QualityLevel :=
  let critical_count := issues.countP (fun i => i.severity == "critical" && !i.auto_fixed)
  let warning_count := issues.countP (fun i => i.severity == "warning" && !i.auto_fixed)
  if critical_count > 0 then .failed
  else if warning_count > 3 then .needs_attention
  else if warning_count > 0 then .acceptable
  else .perfect

/-! ## Document data model

Source-side runs carry Python-truthy tri-state flags collapsed to `Bool`
(`None` and `False` are both falsy in the source's `if run.bold:` tests).
Output runs keep `Option Bool`: `none` models an attribute left unset on the
new run (inheriting the style), `some true` an explicitly set attribute. -/

/-- A source run: text plus character formatting flags. -/
structure Run where
  text : String
  bold : Bool := false
  italic : Bool := false
  underline : Bool := false
deriving DecidableEq, Repr

/-- A run emitted into the rebuilt document. -/
structure OutRun where
  text : String
  font : String
  size : Nat
  bold : Option Bool := none
  italic : Option Bool := none
  underline : Option Bool := none
  color : Option (Nat × Nat × Nat) := none
deriving DecidableEq, Repr

/-- A source table cell: a list of paragraphs, each a list of runs. -/
structure SrcCell where
  paras : List (List Run)
deriving DecidableEq, Repr

/-- A source table.  `numCols` models `len(table.columns)` (the `tblGrid`
column count), which is independent of any individual row's cell count. -/
structure SrcTable where
  numCols : Nat
  rows : List (List SrcCell)
deriving DecidableEq, Repr

/-- A cell of the rebuilt table: paragraphs of runs, plus the shading fill
and width (in fiftieths of a percent) written by the table formatter. -/
structure OutCell where
  paras : List (List OutRun)
  shading : Option String := none
  widthPct : Option Int := none
deriving DecidableEq, Repr

/-- A rebuilt table. -/
structure OutTable where
  numCols : Nat
  rows : List (List OutCell)
deriving DecidableEq, Repr

/-- A brand profile: the fields of one `brands` entry of
`brand-mapping.json` that `apply_brand.py` reads. -/
structure Brand where
  name : String
  headingFont : String
  bodyFont : String
  h1Size : Nat
  h1Color : String
  h2Size : Nat
  h2Color : String
  h3Size : Nat
  h3Color : String
  bodySize : Nat
  primary : String
  accent : String
  textPrimary : String
  textSecondary : String
deriving DecidableEq, Repr

/-- Concatenated text of a list of runs (`paragraph.text`). -/
def runsTextL (runs : List Run) : List Char :=
  (runs.map (fun r => r.text.data)).flatten

/-- Model of `cell.text` of a source cell: paragraph texts joined by newlines. -/
def srcCellTextL (c : SrcCell) : List Char :=
  List.intercalate ['\n'] (c.paras.map runsTextL)

/-- Concatenated text of a list of output runs. -/
def outRunsTextL (runs : List OutRun) : List Char :=
  (runs.map (fun r => r.text.data)).flatten

/-- Model of `cell.text` of a rebuilt cell. -/
def outCellTextL (c : OutCell) : List Char :=
  List.intercalate ['\n'] (c.paras.map outRunsTextL)

/-! ## `_copy_table`: structural copy of a source table -/

/-- Run transformation inside `_copy_table`: body font/size, white bold text
on the header row, brand text color elsewhere, and the source's explicit
bold/italic re-asserted on top. -/
def copyTableRun (body_font : String) (body_size : Nat)
    (text_color : Nat × Nat × Nat) (header : Bool) (r : Run) : OutRun :=
  let nr : OutRun := { text := r.text, font := body_font, size := body_size }
  let nr := if header then { nr with bold := some true, color := some (255, 255, 255) }
            else { nr with color := some text_color }
  let nr := if r.bold then { nr with bold := some true } else nr
  if r.italic then { nr with italic := some true } else nr

/-- Cell copy inside `_copy_table`: the new cell's single empty paragraph is
cleared and refilled for the first source paragraph, later paragraphs are
appended; a source cell with no paragraphs leaves the empty paragraph. -/
def copyTableCell (body_font : String) (body_size : Nat)
    (text_color : Nat × Nat × Nat) (header : Bool) (c : SrcCell) : OutCell :=
  if c.paras.isEmpty then { paras := [[]] }
  else { paras := c.paras.map (fun p => p.map (copyTableRun body_font body_size text_color header)) }

/-- Model of `_copy_table`: build a uniform `len(rows) × len(columns)` grid and copy
cell contents into it.  Source cells beyond column `cols` are skipped
(`if j < cols`), and grid cells with no source counterpart keep their single
empty paragraph.  The `accent_color` parameter is accepted but unused, as in
the source. -/
def copyTable (body_font : String) (body_size : Nat)
    (text_color accent_color : Nat × Nat × Nat) (src : SrcTable) : OutTable :=
  let cols := src.numCols
  { numCols := cols,
    rows := (List.range src.rows.length).map (fun i =>
      (List.range cols).map (fun j =>
        match (src.rows.getD i []).get? j with
        | some c => copyTableCell body_font body_size text_color (i == 0) c
        | none => { paras := [[]] })) }

/-! ## `_optimize_column_widths`: content-length width heuristic -/

/-- Clamp a raw proportion to `[0.15, 0.60]`
(`max(min_pct, min(max_pct, proportion))`). -/
def clampProportion (p : ℚ) : ℚ := max (15/100) (min (60/100) p)

/-- Model of `total_length = sum(col_max_lengths) or 1`. -/
def totalLengthOf (lengths : List Nat) : ℚ :=
  if lengths.sum = 0 then 1 else (lengths.sum : ℚ)

/-- Per-column clamped proportions before re-normalization. -/
def rawWidths (lengths : List Nat) : List ℚ :=
  lengths.map (fun len => clampProportion ((len : ℚ) / totalLengthOf lengths))

/-- Clamped proportions re-normalized to sum to 1
(`widths = [w / total_proportion for w in widths]`). -/
def normalizedWidths (lengths : List Nat) : List ℚ :=
  let ws := rawWidths lengths
  ws.map (fun w => w / ws.sum)

/-- Length of `cell.text.strip()` for a rebuilt cell. -/
def cellTextStripLen (c : OutCell) : Nat := (pyStripL (outCellTextL c)).length

/-- One row's contribution to `col_max_lengths`: positions beyond the
accumulator (i.e. `i ≥ num_cols`) are ignored, rows shorter than the
accumulator leave the remaining entries unchanged. -/
def updateColMax : List Nat → List OutCell → List Nat
  | [], _ => []
  | ms, [] => ms
  | m :: ms, c :: cs => max m (cellTextStripLen c) :: updateColMax ms cs

/-- Model of `col_max_lengths`: per-column maximum of stripped cell-text lengths.
(The source also computes `col_has_numbers`, which is never used.) -/
def colMaxLengths (t : OutTable) : List Nat :=
  t.rows.foldl updateColMax (List.replicate t.numCols 0)

/-- Final column-width proportions the formatter computes for a table. -/
def optimizeWidthsList (t : OutTable) : List ℚ := normalizedWidths (colMaxLengths t)

/-- Model of `int(widths[i] * 5000)`: width in fiftieths of a percent. -/
def widthPctOf (w : ℚ) : Int := Int.floor (w * 5000)

/-- Write the computed widths into one row's cells. -/
def setRowWidths : List ℚ → List OutCell → List OutCell
  | _, [] => []
  | [], cs => cs
  | w :: ws, c :: cs => { c with widthPct := some (widthPctOf w) } :: setRowWidths ws cs

/-- Model of `_optimize_column_widths`: no-op on a table without rows, otherwise
computes the proportions and writes them into every cell. -/
def optimizeColumnWidths (t : OutTable) : OutTable :=
  if t.rows.isEmpty then t
  else { t with rows := t.rows.map (setRowWidths (optimizeWidthsList t)) }

/-! ## `_format_header_row` and `_format_body_rows` -/

/-- Model of `_format_header_row`: brand-primary shading on every first-row cell, and
every first-row run forced bold with white text, body font and size.  (The
cell bottom border it also writes is outside this model.) -/
def formatHeaderRow (primary body_font : String) (body_size : Nat)
    (t : OutTable) : OutTable :=
  match t.rows with
  | [] => t
  | r0 :: rest =>
    let bg := stripHash primary
    { t with rows := (r0.map (fun c =>
        { c with
          shading := some bg,
          paras := c.paras.map (fun p => p.map (fun r =>
            { r with bold := some true, color := some (255, 255, 255),
                     size := body_size, font := body_font })) })) :: rest }

/-- Model of `_format_body_rows`: no-op on tables with fewer than two rows; otherwise
every second body row gets the light-gray fill and every body-row run gets
the brand text color, body font and size.  The header row is untouched. -/
def formatBodyRows (textPrimary body_font : String) (body_size : Nat)
    (t : OutTable) : OutTable :=
  if t.rows.length < 2 then t
  else match t.rows with
  | [] => t
  | r0 :: rest =>
    { t with rows := r0 :: rest.mapIdx (fun k row =>
        let i := k + 1
        row.map (fun c =>
          let c := if i % 2 == 0 then { c with shading := some "F8F9FA" } else c
          { c with paras := c.paras.map (fun p => p.map (fun r =>
            { r with color := some (hexToRgb textPrimary),
                     size := body_size, font := body_font })) })) }

/-- Model of `format_table`: the pipeline steps of `ProfessionalTableFormatter` that
touch cell contents, in source order — width optimization, header row, body
rows.  (Table-level width/borders/padding/row-height steps write only
table-scoped XML and are outside this model.) -/
def formatTable (b : Brand) (t : OutTable) : OutTable :=
  formatBodyRows b.textPrimary b.bodyFont b.bodySize
    (formatHeaderRow b.primary b.bodyFont b.bodySize
      (optimizeColumnWidths t))

/-! ## Content reconstruction (`apply_brand_to_docx` body loop) -/

/-- A source paragraph: named style, runs, optional alignment (as the
numeric `WD_ALIGN_PARAGRAPH` value; `LEFT` is 0). -/
structure Paragraph where
  styleName : String
  runs : List Run := []
  alignment : Option Nat := none
deriving DecidableEq, Repr

/-- A top-level body element of the source document: paragraph or table,
in original order. -/
inductive Block where
  | para (p : Paragraph)
  | table (t : SrcTable)
deriving DecidableEq, Repr

/-- Model of `paragraph.text`: concatenation of the paragraph's run texts. -/
def paraTextL (p : Paragraph) : List Char := runsTextL p.runs

/-- The paragraph roles distinguished by the rebuild loop's `if`/`elif`
chain. -/
inductive ParaKind where
  | h1
  | h2
  | h3
  | title
  | subtitle
  | listBullet
  | listNumber
  | quoted
  | generic
deriving DecidableEq, Repr

/-- The style-name dispatch of the rebuild loop, with the source's exact
conditions and priority order: `startswith` for headings, equality for
Title/Subtitle, substring containment for list and quote styles, and a
generic fallback. -/
def classifyStyle (style_name : String) : ParaKind :=
  if strBegins style_name "Heading 1" || style_name == "Heading 1" then .h1
  else if strBegins style_name "Heading 2" || style_name == "Heading 2" then .h2
  else if strBegins style_name "Heading 3" || style_name == "Heading 3" then .h3
  else if style_name == "Title" then .title
  else if style_name == "Subtitle" then .subtitle
  else if strHas style_name "List Bullet" then .listBullet
  else if strHas style_name "List Number" then .listNumber
  else if strHas style_name "Quote" then .quoted
  else .generic

/-- A paragraph emitted into the rebuilt document: style name, runs, and the
explicit spacing/alignment the loop writes (points). -/
structure OutPara where
  style : String := "Normal"
  runs : List OutRun := []
  spaceBefore : Option Nat := none
  spaceAfter : Option Nat := none
  alignment : Option Nat := none
deriving DecidableEq, Repr

/-- A block of the rebuilt document.  `pageBreak` models the empty paragraph
`doc.add_page_break()` inserts; `heading` models `doc.add_heading`. -/
inductive OutBlock where
  | pageBreak
  | heading (level : Nat) (text : String)
  | para (p : OutPara)
  | outTable (t : OutTable)
deriving DecidableEq, Repr

/-- The body of the `_copy_runs` loop: copy one run's text with the role's
base font/size/color, then re-assert the source's explicit
bold/italic/underline on top (each flag is set only when truthy on the
source run, never cleared). -/
def copyRunOne (font_name : String) (font_size : Nat)
    (color : Nat × Nat × Nat) (r : Run) : OutRun :=
  let nr : OutRun := { text := r.text, font := font_name, size := font_size,
                       color := some color }
  let nr := if r.bold then { nr with bold := some true } else nr
  let nr := if r.italic then { nr with italic := some true } else nr
  if r.underline then { nr with underline := some true } else nr

/-- Model of `_copy_runs` over a paragraph's runs. -/
def copyRuns (font_name : String) (font_size : Nat)
    (color : Nat × Nat × Nat) (runs : List Run) : List OutRun :=
  runs.map (copyRunOne font_name font_size color)

/-- The fixed-size spacer paragraphs inserted around tables. -/
def spacerPara (before after : Nat) : OutPara :=
  { style := "Normal", runs := [], spaceBefore := some before, spaceAfter := some after }

/-- Model of `if para.alignment:` — Python truthiness: `None` and `LEFT` (0) are both
falsy, so only a nonzero alignment is copied onto the new paragraph. -/
def copiedAlignment (al : Option Nat) : Option Nat :=
  match al with
  | some a => if a ≠ 0 then some a else none
  | none => none

/-- The content-copy loop of `apply_brand_to_docx`: one forward pass over
the source body blocks, threading the `first_h1_seen` flag.  Empty
paragraphs (no stripped text and no runs) are skipped before any style
dispatch; a Heading 1 is preceded by a page break exactly when the flag is
already set; tables are copied bracketed by spacer paragraphs and collected
for later formatting. -/
def rebuildBody (b : Brand) : Bool → List Block → List OutBlock
  | _, [] => []
  | seen, Block.table t :: rest =>
      OutBlock.para (spacerPara 18 6) ::
      OutBlock.outTable (copyTable b.bodyFont b.bodySize
        (hexToRgb b.textPrimary) (hexToRgb b.accent) t) ::
      OutBlock.para (spacerPara 6 24) ::
      rebuildBody b seen rest
  | seen, Block.para p :: rest =>
      if (pyStripL (paraTextL p)).isEmpty && p.runs.isEmpty then
        rebuildBody b seen rest
      else
        match classifyStyle p.styleName with
        | .h1 =>
            (if seen then [OutBlock.pageBreak] else []) ++
            OutBlock.heading 1 (String.mk (pyStripL (paraTextL p))) ::
            rebuildBody b true rest
        | .h2 =>
            OutBlock.heading 2 (String.mk (pyStripL (paraTextL p))) ::
            rebuildBody b seen rest
        | .h3 =>
            OutBlock.heading 3 (String.mk (pyStripL (paraTextL p))) ::
            rebuildBody b seen rest
        | .title =>
            OutBlock.para
              { style := "Normal", alignment := some 1,
                spaceBefore := some 100, spaceAfter := some 24,
                runs := p.runs.map (fun r =>
                  { text := r.text, font := b.headingFont, size := b.h1Size + 14,
                    bold := some true, color := some (hexToRgb b.primary) }) } ::
            rebuildBody b seen rest
        | .subtitle =>
            OutBlock.para
              { style := "Normal", alignment := some 1,
                spaceBefore := some 0, spaceAfter := some 36,
                runs := p.runs.map (fun r =>
                  { text := r.text, font := b.bodyFont, size := b.bodySize + 2,
                    color := some (hexToRgb b.textSecondary) }) } ::
            rebuildBody b seen rest
        | .listBullet =>
            OutBlock.para
              { style := "List Bullet", spaceBefore := some 2, spaceAfter := some 2,
                runs := copyRuns b.bodyFont b.bodySize (hexToRgb b.textPrimary) p.runs } ::
            rebuildBody b seen rest
        | .listNumber =>
            OutBlock.para
              { style := "List Number", spaceBefore := some 2, spaceAfter := some 2,
                runs := copyRuns b.bodyFont b.bodySize (hexToRgb b.textPrimary) p.runs } ::
            rebuildBody b seen rest
        | .quoted =>
            OutBlock.para
              { style := "Normal", spaceBefore := some 12, spaceAfter := some 12,
                runs := p.runs.map (fun r =>
                  { text := r.text, font := b.bodyFont, size := b.bodySize,
                    italic := some true, color := some (hexToRgb b.textSecondary) }) } ::
            rebuildBody b seen rest
        | .generic =>
            OutBlock.para
              { style := "Normal", alignment := copiedAlignment p.alignment,
                spaceBefore := some 0, spaceAfter := some 10,
                runs := copyRuns b.bodyFont b.bodySize (hexToRgb b.textPrimary) p.runs } ::
            rebuildBody b seen rest

/-- The post-loop table-formatting pass: tables collected during rebuild are
formatted in place, every other block is untouched. -/
def formatBlock (b : Brand) : OutBlock → OutBlock
  | OutBlock.outTable t => OutBlock.outTable (formatTable b t)
  | OutBlock.pageBreak => OutBlock.pageBreak
  | OutBlock.heading l t => OutBlock.heading l t
  | OutBlock.para p => OutBlock.para p

/-- Full rebuild of the output body: content copy, then table formatting. -/
def polishBody (b : Brand) (blocks : List Block) : List OutBlock :=
  (rebuildBody b false blocks).map (formatBlock b)

/-- Page-break discipline checker, a left-to-right scan with two state bits:
`pending` — the previous block was a page break; `seen` — a Heading 1 was
already emitted.  It accepts exactly the block lists in which every page
break immediately precedes a Heading 1, the first Heading 1 has no break
before it, and every later Heading 1 does. -/
def checkH1Breaks : List OutBlock → Bool → Bool → Bool
  | [], pending, _ => !pending
  | OutBlock.pageBreak :: rest, pending, seen =>
      !pending && checkH1Breaks rest true seen
  | OutBlock.heading l _ :: rest, pending, seen =>
      if l == 1 then (pending == seen) && checkH1Breaks rest false true
      else !pending && checkH1Breaks rest false seen
  | _ :: rest, pending, seen =>
      !pending && checkH1Breaks rest false seen

/-- All runs of a rebuilt block (table cell runs excluded: a table is not a
body paragraph). -/
def outBlockRuns : OutBlock → List OutRun
  | OutBlock.para p => p.runs
  | _ => []

/-- All body-paragraph runs of a rebuilt block list, in order. -/
def blocksRuns (l : List OutBlock) : List OutRun :=
  (l.map outBlockRuns).flatten

/-! ## Typography engine -/

/-! ## Quality validator checks

The validator observes the rebuilt document through `doc.paragraphs` (style
name and text), `doc.tables` (cell texts) and `doc.sections` (margins, in
EMU as python-docx stores them: `Inches(0.5)` = 457200). -/

/-- A paragraph as the validator sees it. -/
structure VPara where
  style : String
  text : String
deriving DecidableEq, Repr

/-- A document as the validator sees it: paragraphs, tables (rows of cell
texts), and section left margins in EMU. -/
structure VDoc where
  paragraphs : List VPara
  tables : List (List (List String))
  sections : List Nat
deriving DecidableEq, Repr

/-- Python `str.split()`: split on whitespace runs, dropping empty pieces.
The accumulator holds the current word reversed. -/
def pyWordsAux : List Char → List Char → List (List Char)
  | cur, [] => if cur.isEmpty then [] else [cur.reverse]
  | cur, c :: cs =>
    if isSpaceChar c then
      if cur.isEmpty then pyWordsAux [] cs else cur.reverse :: pyWordsAux [] cs
    else pyWordsAux (c :: cur) cs

/-- Python `str.split()` on a character list. -/
def pyWords (l : List Char) : List (List Char) := pyWordsAux [] l

/-- Model of `_check_typography`: flag non-empty single-word paragraphs shorter than
5 characters as potential runt lines. -/
def checkTypographyAux : Nat → List VPara → List QualityIssue
  | _, [] => []
  | i, p :: ps =>
    (if !p.text.data.isEmpty && (pyWords p.text.data).length == 1
        && p.text.data.length < 5 then
      [{ category := "typography", severity := "warning",
         message := "Potential runt line (single short word)",
         location := "Paragraph " ++ toString (i + 1) }]
     else []) ++ checkTypographyAux (i + 1) ps

/-- Model of `_check_typography` over a document. -/
def checkTypography (d : VDoc) : List QualityIssue := checkTypographyAux 0 d.paragraphs

/-- Warnings for empty header-row cells of table `ti` (0-based), from
column index `j`. -/
def emptyHeaderIssues (ti : Nat) : Nat → List String → List QualityIssue
  | _, [] => []
  | j, cell :: cs =>
    (if (pyStripL cell.data).isEmpty then
      [{ category := "tables", severity := "warning",
         message := "Empty header cell in column " ++ toString (j + 1),
         location := "Table " ++ toString (ti + 1) }]
     else []) ++ emptyHeaderIssues ti (j + 1) cs

/-- Model of `_check_tables`: a critical issue when the per-row cell counts of a
table are not all equal (`len(set(col_counts)) > 1`), plus a warning for
every empty header cell. -/
def checkTablesAux : Nat → List (List (List String)) → List QualityIssue
  | _, [] => []
  | i, tbl :: ts =>
    let col_counts := tbl.map List.length
    (if col_counts.dedup.length > 1 then
      [{ category := "tables", severity := "critical",
         message := "Inconsistent column count across rows",
         location := "Table " ++ toString (i + 1) }]
     else []) ++
    (match tbl with
     | [] => []
     | hdr :: _ => emptyHeaderIssues i 0 hdr) ++
    checkTablesAux (i + 1) ts

/-- Model of `_check_tables` over a document. -/
def checkTables (d : VDoc) : List QualityIssue := checkTablesAux 0 d.tables

/-- Model of `_check_spacing`: count consecutive empty paragraphs; from the third
one on, each adds a warning that is born `auto_fixed = True`. -/
def checkSpacingAux : Nat → Nat → List VPara → List QualityIssue
  | _, _, [] => []
  | i, consecutive_empty, p :: ps =>
    if (pyStripL p.text.data).isEmpty then
      let ce := consecutive_empty + 1
      (if ce > 2 then
        [{ category := "spacing", severity := "warning",
           message := "Excessive empty paragraphs",
           location := "Paragraph " ++ toString (i + 1), auto_fixed := true }]
       else []) ++ checkSpacingAux (i + 1) ce ps
    else checkSpacingAux (i + 1) 0 ps

/-- Model of `_check_spacing` over a document. -/
def checkSpacing (d : VDoc) : List QualityIssue := checkSpacingAux 0 0 d.paragraphs

/-- Decimal-digit parser for `int(tok)`: `none` models `ValueError`. -/
def digitsValAux : Nat → List Char → Option Nat
  | acc, [] => some acc
  | acc, c :: cs =>
    if '0' ≤ c ∧ c ≤ '9' then digitsValAux (acc * 10 + (c.toNat - 48)) cs else none

/-- Value of a nonempty all-digit token. -/
def digitsVal (l : List Char) : Option Nat :=
  if l.isEmpty then none else digitsValAux 0 l

/-- Model of `int(tok)` for a `split()` token: optional sign, then digits. -/
def pyIntOfToken (l : List Char) : Option Int :=
  match l with
  | '-' :: ds => (digitsVal ds).map (fun n => -(n : Int))
  | '+' :: ds => (digitsVal ds).map (fun n => (n : Int))
  | ds => (digitsVal ds).map (fun n => (n : Int))

/-- Model of `_check_consistency`: track the last heading level; parse the last word
of any style name containing "Heading" and warn when the level skips up by
more than one (parse failures are swallowed and change nothing). -/
def checkConsistencyAux : Nat → Int → List VPara → List QualityIssue
  | _, _, [] => []
  | i, last, p :: ps =>
    if strHas p.style "Heading" then
      match (pyWords p.style.data).getLast? with
      | none => checkConsistencyAux (i + 1) last ps
      | some tok =>
        match pyIntOfToken tok with
        | none => checkConsistencyAux (i + 1) last ps
        | some level =>
          (if level > last + 1 ∧ last > 0 then
            [{ category := "structure", severity := "warning",
               message := "Skipped heading level (H" ++ toString last
                 ++ " to H" ++ toString level ++ ")",
               location := "Paragraph " ++ toString (i + 1) }]
           else []) ++ checkConsistencyAux (i + 1) level ps
    else checkConsistencyAux (i + 1) last ps

/-- Model of `_check_consistency` over a document. -/
def checkConsistency (d : VDoc) : List QualityIssue := checkConsistencyAux 0 0 d.paragraphs

/-- Model of `_check_page_layout`: warn when a section's left margin is under half an
inch (457200 EMU). -/
def checkPageLayout (d : VDoc) : List QualityIssue :=
  d.sections.foldr (fun m acc =>
    (if m < 457200 then
      [{ category := "layout", severity := "warning",
         message := "Left margin too narrow for professional printing",
         location := "Document margins" }]
     else []) ++ acc) []

/-- Model of `QualityValidator.validate_document`: run the five checks in source
order and derive the overall level. -/
def validate_document (d : VDoc) : QualityLevel × List QualityIssue :=
  let issues := checkTypography d ++ checkTables d ++ checkSpacing d
    ++ checkConsistency d ++ checkPageLayout d
  (determineQuality issues, issues)

/-! ## Output document as the validator sees it -/

/-- Model of `doc.paragraphs` of the rebuilt document: page breaks and spacers are
empty Normal paragraphs, headings carry their style name, tables contribute
no body paragraph. -/
def vparasOf : List OutBlock → List VPara
  | [] => []
  | OutBlock.pageBreak :: rest => { style := "Normal", text := "" } :: vparasOf rest
  | OutBlock.heading l t :: rest =>
      { style := "Heading " ++ toString l, text := t } :: vparasOf rest
  | OutBlock.para p :: rest =>
      { style := p.style, text := String.mk (outRunsTextL p.runs) } :: vparasOf rest
  | OutBlock.outTable _ :: rest => vparasOf rest

/-- Model of `doc.tables` of the rebuilt document, as rows of cell texts. -/
def vtablesOf : List OutBlock → List (List (List String))
  | [] => []
  | OutBlock.outTable t :: rest =>
      (t.rows.map (fun row => row.map (fun c => String.mk (outCellTextL c)))) :: vtablesOf rest
  | _ :: rest => vtablesOf rest

/-- The rebuilt document as seen by the validator.  The single section's
left margin is the 1.25 in (1143000 EMU) the styling pass sets. -/
def vdocOf (blocks : List OutBlock) : VDoc :=
  { paragraphs := vparasOf blocks, tables := vtablesOf blocks, sections := [1143000] }

/-! ## Brand loading and batch processing -/

/-- Model of `load_brand_config`: case-insensitive lookup in the brand registry;
an unknown id is an error (`ValueError`), not a default. -/
def load_brand_config (reg : List (String × Brand)) (brand_name : String) :
    Except String Brand :=
  match reg.lookup (pyLower brand_name) with
  | none => Except.error ("Brand '" ++ brand_name ++ "' not found.")
  | some b => Except.ok b

/-- Model of `apply_brand_to_docx`: load the brand, rebuild and format the body,
validate, and return the output path with the quality verdict. -/
def apply_brand_to_docx (reg : List (String × Brand)) (src : List Block)
    (brand_name output_path : String) :
    Except String (String × QualityLevel × List QualityIssue) :=
  match load_brand_config reg brand_name with
  | Except.error e => Except.error e
  | Except.ok brand =>
    let out := polishBody brand src
    let v := validate_document (vdocOf out)
    Except.ok (output_path, v.1, v.2)

/-- Output filename derivation: insert `_<brand>` before a `.docx`
extension, else append it to the bare prefix. -/
def brandOutputPath (out_pfx brand_lower : String) : String :=
  if strEnds out_pfx ".docx" then
    String.mk (out_pfx.data.take (out_pfx.data.length - 5))
      ++ "_" ++ brand_lower ++ ".docx"
  else out_pfx ++ "_" ++ brand_lower ++ ".docx"

/-- Model of `apply_multiple_brands`: lower-case and strip each requested id, apply
the brand, and append one `(path, quality)` result on success; any failure
is caught, reported, and the loop continues with the next brand. -/
def apply_multiple_brands (reg : List (String × Brand)) (src : List Block) :
    List String → String → List (String × QualityLevel)
  | [], _ => []
  | brand :: rest, out_pfx =>
    let brand_lower := pyStrip (pyLower brand)
    let output_path := brandOutputPath out_pfx brand_lower
    match apply_brand_to_docx reg src brand_lower output_path with
    | Except.ok r => (r.1, r.2.1) :: apply_multiple_brands reg src rest out_pfx
    | Except.error _ => apply_multiple_brands reg src rest out_pfx

/-! ## Typography engine -/

/-- Model of `TypographyEngine.calculate_spacing`: before/after spacing in points for an
element role, from the brand's body point size.  `Pt(int(base * m))` is
modelled as exact decimal arithmetic followed by floor division. -/
def calculate_spacing (base : Nat) (element_type : String) : Nat × Nat :=
  let spacing_map : List (String × (Nat × Nat)) :=
    [("body", (0, base * 9 / 10)),
     ("h1", (base * 2, base * 3 / 2)),
     ("h2", (base * 9 / 5, base * 4 / 5)),
     ("h3", (base * 6 / 5, base / 2)),
     ("list", (2, 2)),
     ("table", (12, 12))]
  (spacing_map.lookup element_type).getD (0, base)

/-! ## Demonstration inputs -/

/-- A concrete brand profile in the shape of the registry entries. -/
def demoBrand : Brand :=
  { name := "Acme", headingFont := "Georgia", bodyFont := "Calibri",
    h1Size := 18, h1Color := "#112233", h2Size := 14, h2Color := "#112233",
    h3Size := 12, h3Color := "#112233", bodySize := 11,
    primary := "#112233", accent := "#445566",
    textPrimary := "#222222", textSecondary := "#666666" }

/-- A source cell holding one paragraph with one plain run. -/
def srcTextCell (s : String) : SrcCell := { paras := [[{ text := s }]] }

/-- A rebuilt cell holding one paragraph with one plain run. -/
def outTextCell (s : String) : OutCell :=
  { paras := [[{ text := s, font := "Calibri", size := 11 }]] }

/-! ## Theorems -/

/-- Claim C6. For every list of quality issues, the level rule of
`validate_document` returns FAILED iff some critical issue is not
auto-fixed; otherwise NEEDS_ATTENTION iff strictly more than 3 warnings are
not auto-fixed; otherwise ACCEPTABLE iff at least one such warning exists;
otherwise PERFECT. -/
theorem c6_quality_level_rule (issues : List QualityIssue) :
    (determineQuality issues = QualityLevel.failed ↔
      ∃ i ∈ issues, i.severity = "critical" ∧ i.auto_fixed = false) ∧
    (determineQuality issues = QualityLevel.needs_attention ↔
      (¬ ∃ i ∈ issues, i.severity = "critical" ∧ i.auto_fixed = false) ∧
      3 < issues.countP (fun i => i.severity == "warning" && !i.auto_fixed)) ∧
    (determineQuality issues = QualityLevel.acceptable ↔
      (¬ ∃ i ∈ issues, i.severity = "critical" ∧ i.auto_fixed = false) ∧
      issues.countP (fun i => i.severity == "warning" && !i.auto_fixed) ≤ 3 ∧
      (∃ i ∈ issues, i.severity = "warning" ∧ i.auto_fixed = false)) ∧
    (determineQuality issues = QualityLevel.perfect ↔
      (¬ ∃ i ∈ issues, i.severity = "critical" ∧ i.auto_fixed = false) ∧
      ¬ ∃ i ∈ issues, i.severity = "warning" ∧ i.auto_fixed = false) := by
  have hc : (0 < issues.countP (fun i => i.severity == "critical" && !i.auto_fixed)) ↔
      (∃ i ∈ issues, i.severity = "critical" ∧ i.auto_fixed = false) := by
    rw [List.countP_pos_iff]
    simp [Bool.not_eq_true']
  have hw : (0 < issues.countP (fun i => i.severity == "warning" && !i.auto_fixed)) ↔
      (∃ i ∈ issues, i.severity = "warning" ∧ i.auto_fixed = false) := by
    rw [List.countP_pos_iff]
    simp [Bool.not_eq_true']
  simp only [determineQuality]
  split_ifs with h1 h2 h3
  · have hP := hc.mp h1
    refine ⟨iff_of_true rfl hP, iff_of_false (by decide) (fun h => h.1 hP),
      iff_of_false (by decide) (fun h => h.1 hP),
      iff_of_false (by decide) (fun h => h.1 hP)⟩
  · have hnc : ¬ ∃ i ∈ issues, i.severity = "critical" ∧ i.auto_fixed = false :=
      fun hp => h1 (hc.mpr hp)
    refine ⟨iff_of_false (by decide) hnc, iff_of_true rfl ⟨hnc, h2⟩,
      iff_of_false (by decide) (fun h => (Nat.not_lt.mpr h.2.1) h2),
      iff_of_false (by decide) (fun h => h.2 (hw.mp (by omega)))⟩
  · have hnc : ¬ ∃ i ∈ issues, i.severity = "critical" ∧ i.auto_fixed = false :=
      fun hp => h1 (hc.mpr hp)
    have hW := hw.mp h3
    refine ⟨iff_of_false (by decide) hnc, iff_of_false (by decide) (fun h => h2 h.2),
      iff_of_true rfl ⟨hnc, by omega, hW⟩,
      iff_of_false (by decide) (fun h => h.2 hW)⟩
  · have hnc : ¬ ∃ i ∈ issues, i.severity = "critical" ∧ i.auto_fixed = false :=
      fun hp => h1 (hc.mpr hp)
    have hnW : ¬ ∃ i ∈ issues, i.severity = "warning" ∧ i.auto_fixed = false :=
      fun hWp => h3 (hw.mpr hWp)
    refine ⟨iff_of_false (by decide) hnc, iff_of_false (by decide) (fun h => h2 h.2),
      iff_of_false (by decide) (fun h => hnW h.2.2), iff_of_true rfl ⟨hnc, hnW⟩⟩

/-- Claim C7 counterexample. The 'list' and 'table' roles get identical
spacing for body sizes 11 and 22: their spacing is a fixed constant, not
scaled from the brand's body size, contradicting the claim that no role's
spacing is a fixed constant. -/
theorem c7_counterexample :
    calculate_spacing 11 "list" = calculate_spacing 22 "list" ∧
    calculate_spacing 11 "list" = (2, 2) ∧
    calculate_spacing 11 "table" = calculate_spacing 22 "table" ∧
    calculate_spacing 11 "table" = (12, 12) := ⟨rfl, rfl, rfl, rfl⟩

/-- Claim C7 amended. The spacing table scales the body, h1, h2 and h3 roles
from the brand's body point size (floors of fixed multiples), but the list
and table roles are the fixed constants (2,2) and (12,12); doubling the
body size doubles, e.g., the h1 before-spacing but leaves list and table
spacing unchanged. -/
theorem c7_amended (base : Nat) :
    calculate_spacing base "body" = (0, base * 9 / 10) ∧
    calculate_spacing base "h1" = (base * 2, base * 3 / 2) ∧
    calculate_spacing base "h2" = (base * 9 / 5, base * 4 / 5) ∧
    calculate_spacing base "h3" = (base * 6 / 5, base / 2) ∧
    calculate_spacing base "list" = (2, 2) ∧
    calculate_spacing base "table" = (12, 12) ∧
    calculate_spacing base "caption" = (0, base) ∧
    (calculate_spacing (2 * base) "h1").1 = 2 * (calculate_spacing base "h1").1 ∧
    (calculate_spacing (2 * base) "list") = calculate_spacing base "list" ∧
    (calculate_spacing (2 * base) "table") = calculate_spacing base "table" := by
  refine ⟨rfl, rfl, rfl, rfl, rfl, rfl, rfl, ?_, rfl, rfl⟩
  show 2 * base * 2 = 2 * (base * 2)
  ring

/-- Claim C9. A source paragraph with no runs (hence no text) is skipped
before any style classification: whatever its style name — 'Heading 1'
included — it emits nothing, inserts no page break, and leaves the
first-Heading-1-seen flag exactly as it was. -/
theorem c9_empty_paragraph_skipped (b : Brand) (seen : Bool) (sn : String)
    (al : Option Nat) (rest : List Block) :
    rebuildBody b seen (Block.para { styleName := sn, runs := [], alignment := al } :: rest) =
    rebuildBody b seen rest := by
  simp [rebuildBody, paraTextL, runsTextL, pyStripL]

/-- Every issue `_check_spacing` emits is born auto-fixed. -/
theorem checkSpacingAux_auto_fixed (ps : List VPara) :
    ∀ (i ce : Nat), ∀ q ∈ checkSpacingAux i ce ps, q.auto_fixed = true := by
  induction ps with
  | nil => intro i ce q hq; simp [checkSpacingAux] at hq
  | cons p ps ih =>
    intro i ce q hq
    simp only [checkSpacingAux] at hq
    split at hq
    · rcases List.mem_append.mp hq with hq | hq
      · split at hq
        · rcases List.mem_singleton.mp hq with rfl; rfl
        · simp at hq
      · exact ih _ _ q hq
    · exact ih _ _ q hq

/-- Claim C10. Spacing issues (excessive consecutive empty paragraphs) are
always created with `auto_fixed = true`, and the quality level counts only
un-auto-fixed issues; hence a document whose only issues are spacing issues
validates as PERFECT. -/
theorem c10_spacing_issues_perfect :
    (∀ (d : VDoc), ∀ q ∈ checkSpacing d, q.auto_fixed = true) ∧
    (∀ (d : VDoc), checkTypography d = [] → checkTables d = [] →
      checkConsistency d = [] → checkPageLayout d = [] →
      (validate_document d).1 = QualityLevel.perfect) := by
  constructor
  · intro d q hq
    exact checkSpacingAux_auto_fixed d.paragraphs 0 0 q hq
  · intro d ht htb hcons hlay
    have hsp : ∀ q ∈ checkSpacing d, q.auto_fixed = true :=
      fun q hq => checkSpacingAux_auto_fixed d.paragraphs 0 0 q hq
    simp only [validate_document, ht, htb, hcons, hlay, List.nil_append,
      List.append_nil, determineQuality]
    have hc0 : (checkSpacing d).countP
        (fun i => i.severity == "critical" && !i.auto_fixed) = 0 := by
      rw [List.countP_eq_zero]
      intro q hq
      simp [hsp q hq]
    have hw0 : (checkSpacing d).countP
        (fun i => i.severity == "warning" && !i.auto_fixed) = 0 := by
      rw [List.countP_eq_zero]
      intro q hq
      simp [hsp q hq]
    simp [hc0, hw0]

/-- A document with three consecutive empty paragraphs, no tables, and the
1.25-inch margin the styling pass sets. -/
def demoSpacedDoc : VDoc :=
  { paragraphs := [{ style := "Normal", text := "" },
                   { style := "Normal", text := "" },
                   { style := "Normal", text := "" }],
    tables := [], sections := [1143000] }

/-- The one issue `_check_spacing` reports on `demoSpacedDoc`. -/
def demoSpacingIssue : QualityIssue :=
  { category := "spacing", severity := "warning",
    message := "Excessive empty paragraphs", location := "Paragraph 3",
    auto_fixed := true }

/-- Witness for C10: on a concrete document whose only issues are spacing
issues, validation returns PERFECT; the spacing issue list is nonempty and
its issue is auto-fixed. -/
theorem c10_witness :
    (validate_document demoSpacedDoc).1 = QualityLevel.perfect ∧
    checkSpacing demoSpacedDoc ≠ [] ∧
    demoSpacingIssue.auto_fixed = true :=
  ⟨c10_spacing_issues_perfect.2 demoSpacedDoc (by decide) (by decide) (by decide) (by decide),
   by decide,
   c10_spacing_issues_perfect.1 demoSpacedDoc demoSpacingIssue (by decide)⟩

/-- Every clamped (pre-normalization) proportion lies in `[0.15, 0.60]`. -/
theorem rawWidths_bounds (lengths : List Nat) :
    ∀ w ∈ rawWidths lengths, 15/100 ≤ w ∧ w ≤ 60/100 := by
  intro w hw
  simp only [rawWidths, List.mem_map] at hw
  obtain ⟨l, -, rfl⟩ := hw
  exact ⟨le_max_left _ _, max_le (by norm_num) (min_le_left _ _)⟩

/-- Dividing every list entry by `s` divides the sum by `s`. -/
theorem list_sum_div (ws : List ℚ) (s : ℚ) :
    (ws.map (fun w => w / s)).sum = ws.sum / s := by
  induction ws with
  | nil => simp
  | cons a l ih => simp [ih, add_div]

/-- The re-normalized proportions of a nonempty column-length list sum to
exactly 1. -/
theorem normalizedWidths_sum (lengths : List Nat) (h : lengths ≠ []) :
    (normalizedWidths lengths).sum = 1 := by
  have hb := rawWidths_bounds lengths
  have hne : rawWidths lengths ≠ [] := by
    cases lengths with
    | nil => exact absurd rfl h
    | cons a l => simp [rawWidths]
  have hpos : 0 < (rawWidths lengths).sum := by
    apply List.sum_pos
    · intro a ha
      have := (hb a ha).1
      linarith
    · exact hne
  simp only [normalizedWidths, list_sum_div]
  exact div_self (ne_of_gt hpos)

/-- Model of `updateColMax` never changes the accumulator's length. -/
theorem updateColMax_length (ms : List Nat) :
    ∀ cs : List OutCell, (updateColMax ms cs).length = ms.length := by
  induction ms with
  | nil => intro cs; cases cs <;> rfl
  | cons m ms ih =>
    intro cs
    cases cs with
    | nil => rfl
    | cons c cs => simp [updateColMax, ih]

/-- Model of `col_max_lengths` has exactly one entry per table column. -/
theorem colMaxLengths_length (t : OutTable) :
    (colMaxLengths t).length = t.numCols := by
  have : ∀ (rows : List (List OutCell)) (acc : List Nat),
      (rows.foldl updateColMax acc).length = acc.length := by
    intro rows
    induction rows with
    | nil => intro acc; rfl
    | cons r rs ih => intro acc; rw [List.foldl_cons, ih, updateColMax_length]
  rw [colMaxLengths, this, List.length_replicate]

/-- Decidable form of "all clamped proportions lie in `[15%, 60%]`". -/
def clampedInRange (t : OutTable) : Bool :=
  (rawWidths (colMaxLengths t)).all
    (fun w => decide ((15:ℚ)/100 ≤ w) && decide (w ≤ 60/100))

/-- A one-row table whose stripped cell texts have lengths 10, 10 and 1. -/
def wideTable : OutTable :=
  { numCols := 3,
    rows := [[outTextCell "aaaaaaaaaa", outTextCell "bbbbbbbbbb", outTextCell "c"]] }

/-- Claim C1 counterexample. On a table with column content lengths 10, 10, 1
the formatter's final (re-normalized) proportions are
`[200/463, 200/463, 63/463]`, and `63/463 < 15%`: re-normalization pushes a
clamped proportion back out of `[15%, 60%]`, so the claim's bound on the
final proportions is false (the sum-to-100% part does hold). -/
theorem c1_counterexample :
    colMaxLengths wideTable = [10, 10, 1] ∧
    optimizeWidthsList wideTable = [200/463, 200/463, 63/463] ∧
    ¬ ((15:ℚ)/100 ≤ 63/463) := by
  have h : colMaxLengths wideTable = [10, 10, 1] := by decide
  refine ⟨h, ?_, by norm_num⟩
  rw [optimizeWidthsList, h]
  norm_num [normalizedWidths, rawWidths, totalLengthOf, clampProportion,
    List.sum_cons]

/-- Claim C1 amended. For every table with at least one row and one column,
the re-normalized column proportions sum to exactly 1 (100%), and every
clamped proportion lies in `[15%, 60%]` *before* re-normalization; the
final proportions can leave that interval (see the counterexample). -/
theorem c1_amended (t : OutTable) (h1 : t.rows ≠ []) (h2 : t.numCols ≠ 0) :
    (optimizeWidthsList t).sum = 1 ∧ clampedInRange t = true := by
  have hlen := colMaxLengths_length t
  have hne : colMaxLengths t ≠ [] := by
    intro hc
    apply h2
    rw [← hlen, hc]
    rfl
  constructor
  · exact normalizedWidths_sum _ hne
  · simp only [clampedInRange, List.all_eq_true]
    intro w hw
    have hb := rawWidths_bounds _ w hw
    simp only [Bool.and_eq_true, decide_eq_true_eq]
    exact hb

/-- Witness for C1 (amended): the concrete table's proportions sum to 1 and
its clamped proportions all lie in range. -/
theorem c1_witness :
    (optimizeWidthsList wideTable).sum = 1 ∧ clampedInRange wideTable = true :=
  c1_amended wideTable (by decide) (by decide)

/-- A source table whose grid has 2 columns but whose second row holds only
one cell (the structural anomaly C2 talks about). -/
def raggedTable : SrcTable :=
  { numCols := 2,
    rows := [[srcTextCell "a", srcTextCell "b"], [srcTextCell "c"]] }

/-- Claim C2 counterexample. Copying `raggedTable` does not preserve per-row
cell counts: the source rows have 2 and 1 cells, but every output row has 2
cells — `_copy_table` builds a uniform `rows × len(columns)` grid, padding
the short row with an empty cell, so the output *is* reshaped. -/
theorem c2_counterexample :
    raggedTable.rows.map List.length = [2, 1] ∧
    ((copyTable "Calibri" 11 (0, 0, 0) (0, 0, 0) raggedTable).rows.map
      List.length) = [2, 2] := by
  exact ⟨rfl, by decide⟩

/-- Claim C2 amended. `_copy_table` preserves the row count, and gives every
output row exactly `len(columns)` (= `numCols`) cells: source rows with
extra cells are truncated and shorter rows are padded with empty cells, so
per-row cell counts are preserved exactly when every source row already has
`numCols` cells. -/
theorem c2_amended (f : String) (s : Nat) (tc ac : Nat × Nat × Nat) (src : SrcTable) :
    (copyTable f s tc ac src).rows.length = src.rows.length ∧
    ((copyTable f s tc ac src).rows.all (fun r => r.length == src.numCols)) = true := by
  constructor
  · simp [copyTable]
  · simp only [copyTable, List.all_eq_true, List.mem_map, List.mem_range]
    rintro r ⟨i, -, rfl⟩
    simp

/-- The flags `_copy_runs` writes on one copied run. -/
theorem copyRunOne_flags (fn : String) (fs : Nat) (col : Nat × Nat × Nat) (r : Run) :
    (copyRunOne fn fs col r).bold = (if r.bold then some true else none) ∧
    (copyRunOne fn fs col r).italic = (if r.italic then some true else none) ∧
    (copyRunOne fn fs col r).underline = (if r.underline then some true else none) := by
  obtain ⟨t, b, i, u⟩ := r
  cases b <;> cases i <;> cases u <;> exact ⟨rfl, rfl, rfl⟩

/-- A source paragraph with the style name "Subtitle" and one bold run. -/
def subtitlePara : Paragraph :=
  { styleName := "Subtitle", runs := [{ text := "key takeaway", bold := true }] }

/-- Claim C3 counterexample. A Subtitle paragraph whose single source run is
bold is rebuilt with that run's bold attribute left unset (`none`), not set:
the Subtitle branch copies runs without re-asserting bold, so run-level bold
is not preserved for every paragraph role. -/
theorem c3_counterexample :
    subtitlePara.runs.map Run.bold = [true] ∧
    (blocksRuns (polishBody demoBrand [Block.para subtitlePara])).map OutRun.bold
      = [none] := by
  exact ⟨rfl, by decide⟩

/-- Claim C3 amended. Run-level bold/italic/underline is preserved additively
by `_copy_runs`, hence for the list and generic body branches that use it,
and the Title branch forces every run bold; but the Subtitle and Quote
branches leave the copied runs' bold unset regardless of the source flag
(and headings re-emit their text without copying runs at all). -/
theorem c3_amended :
    (∀ (fn : String) (fs : Nat) (col : Nat × Nat × Nat) (runs : List Run),
      (copyRuns fn fs col runs).map OutRun.bold
        = runs.map (fun r => if r.bold then some true else none) ∧
      (copyRuns fn fs col runs).map OutRun.italic
        = runs.map (fun r => if r.italic then some true else none) ∧
      (copyRuns fn fs col runs).map OutRun.underline
        = runs.map (fun r => if r.underline then some true else none)) ∧
    (∀ (b : Brand) (seen : Bool) (runs : List Run) (al : Option Nat),
      (blocksRuns (rebuildBody b seen
          [Block.para { styleName := "Title", runs := runs, alignment := al }])).map OutRun.bold
        = runs.map (fun _ => some true)) ∧
    (∀ (b : Brand) (seen : Bool) (runs : List Run) (al : Option Nat),
      (blocksRuns (rebuildBody b seen
          [Block.para { styleName := "Subtitle", runs := runs, alignment := al }])).map OutRun.bold
        = runs.map (fun _ => (none : Option Bool))) ∧
    (∀ (b : Brand) (seen : Bool) (runs : List Run) (al : Option Nat),
      (blocksRuns (rebuildBody b seen
          [Block.para { styleName := "Quote", runs := runs, alignment := al }])).map OutRun.bold
        = runs.map (fun _ => (none : Option Bool))) := by
  refine ⟨?_, ?_, ?_, ?_⟩
  · intro fn fs col runs
    refine ⟨?_, ?_, ?_⟩ <;>
      · rw [copyRuns, List.map_map]
        exact List.map_congr_left (fun r _ => by
          rcases copyRunOne_flags fn fs col r with ⟨h1, h2, h3⟩
          first
            | exact h1
            | exact h2
            | exact h3)
  · intro b seen runs al
    cases runs with
    | nil => rfl
    | cons r rs =>
      have hk : classifyStyle "Title" = ParaKind.title := by decide
      simp only [rebuildBody, paraTextL, List.isEmpty_cons, Bool.and_false,
        Bool.false_eq_true, if_false, hk, blocksRuns, outBlockRuns,
        List.map_cons, List.map_nil, List.flatten, List.append_nil,
        List.map_map]
      rfl
  · intro b seen runs al
    cases runs with
    | nil => rfl
    | cons r rs =>
      have hk : classifyStyle "Subtitle" = ParaKind.subtitle := by decide
      simp only [rebuildBody, paraTextL, List.isEmpty_cons, Bool.and_false,
        Bool.false_eq_true, if_false, hk, blocksRuns, outBlockRuns,
        List.map_cons, List.map_nil, List.flatten, List.append_nil,
        List.map_map]
      rfl
  · intro b seen runs al
    cases runs with
    | nil => rfl
    | cons r rs =>
      have hk : classifyStyle "Quote" = ParaKind.quoted := by decide
      simp only [rebuildBody, paraTextL, List.isEmpty_cons, Bool.and_false,
        Bool.false_eq_true, if_false, hk, blocksRuns, outBlockRuns,
        List.map_cons, List.map_nil, List.flatten, List.append_nil,
        List.map_map]
      rfl

/-- The rebuilt block list always satisfies the page-break discipline when
the checker starts with no pending break and the loop's current
`first_h1_seen` flag. -/
theorem rebuild_checkH1 (b : Brand) (blocks : List Block) :
    ∀ seen : Bool, checkH1Breaks (rebuildBody b seen blocks) false seen = true := by
  induction blocks with
  | nil => intro seen; rfl
  | cons blk rest ih =>
    intro seen
    cases blk with
    | table t => simp [rebuildBody, checkH1Breaks, ih]
    | para p =>
      by_cases hskip : ((pyStripL (paraTextL p)).isEmpty && p.runs.isEmpty) = true
      · simp [rebuildBody, hskip, ih]
      · rcases hkind : classifyStyle p.styleName with - | - | - | - | - | - | - | - | -
        all_goals
          cases seen <;>
            simp [rebuildBody, hskip, hkind, checkH1Breaks, ih]

/-- The post-loop table-formatting pass touches only table payloads, so it
does not change what the page-break checker sees. -/
theorem checkH1_map_format (b : Brand) (l : List OutBlock) :
    ∀ pending seen : Bool,
      checkH1Breaks (l.map (formatBlock b)) pending seen =
      checkH1Breaks l pending seen := by
  induction l with
  | nil => intro pending seen; rfl
  | cons hd tl ih =>
    intro pending seen
    cases hd <;> simp [formatBlock, checkH1Breaks, ih]

/-- Claim C4. In every rebuilt output document, page breaks and Heading 1
blocks interlock exactly as claimed: every inserted page break immediately
precedes a Heading 1, the first Heading 1 of the output has no page break
before it, and every subsequent Heading 1 has one immediately before it —
for every brand and every source block list. -/
theorem c4_first_h1_no_break (b : Brand) (blocks : List Block) :
    checkH1Breaks (polishBody b blocks) false false = true := by
  rw [polishBody, checkH1_map_format]
  exact rebuild_checkH1 b blocks false

/-- One header-row cell as C5 claims it: brand-primary shading, and every
run bold with white text. -/
def headerCellOk (bg : String) (c : OutCell) : Bool :=
  c.shading == some bg &&
  c.paras.all (fun p => p.all (fun r =>
    r.bold == some true && r.color == some (255, 255, 255)))

/-- The header row of a table as C5 claims it: every first-row cell is ok. -/
def headerRowOk (b : Brand) (t : OutTable) : Bool :=
  (t.rows.headD []).all (headerCellOk (stripHash b.primary))

/-- Model of `_format_body_rows` never touches the first row. -/
theorem formatBodyRows_head (tp f : String) (s : Nat) (t : OutTable) :
    (formatBodyRows tp f s t).rows.headD [] = t.rows.headD [] := by
  obtain ⟨n, rows⟩ := t
  cases rows with
  | nil => simp [formatBodyRows]
  | cons r0 rest =>
    simp only [formatBodyRows]
    split
    · rfl
    · rfl

/-- After `_format_header_row`, every first-row cell carries the
brand-primary shading and only bold white runs. -/
theorem formatHeaderRow_ok (p f : String) (s : Nat) (t : OutTable)
    (h : t.rows ≠ []) :
    ((formatHeaderRow p f s t).rows.headD []).all (headerCellOk (stripHash p)) = true := by
  obtain ⟨n, rows⟩ := t
  cases rows with
  | nil => exact absurd rfl h
  | cons r0 rest =>
    simp only [formatHeaderRow, List.headD_cons, List.all_eq_true, List.mem_map,
      headerCellOk, Bool.and_eq_true, beq_iff_eq]
    rintro c ⟨c0, -, rfl⟩
    refine ⟨rfl, ?_⟩
    simp only [List.all_eq_true, List.mem_map, Bool.and_eq_true, beq_iff_eq]
    rintro pp ⟨p0, -, rfl⟩ r hr
    simp only [List.mem_map] at hr
    obtain ⟨rr, -, rfl⟩ := hr
    exact ⟨rfl, rfl⟩

/-- Model of `format_table` leaves every header-row cell with the brand-primary
shading and only bold white runs, for any table with at least one row. -/
theorem headerRowOk_formatTable (b : Brand) (t : OutTable) (h : t.rows ≠ []) :
    headerRowOk b (formatTable b t) = true := by
  have hopt : (optimizeColumnWidths t).rows ≠ [] := by
    rw [optimizeColumnWidths]
    split
    · exact h
    · obtain ⟨n, rows⟩ := t
      cases rows with
      | nil => exact absurd rfl h
      | cons r rs => simp
  rw [formatTable, headerRowOk, formatBodyRows_head]
  exact formatHeaderRow_ok _ _ _ _ hopt

/-- Claim C5. For every brand and every source table with at least one row,
the copied-and-formatted output table has the brand primary color as the
background fill of every header-row cell, and every header-row run is bold
with white (255,255,255) text — independent of the source run formatting
and of the brand text colors. -/
theorem c5_header_row (b : Brand) (src : SrcTable) (h : src.rows ≠ []) :
    headerRowOk b (formatTable b (copyTable b.bodyFont b.bodySize
      (hexToRgb b.textPrimary) (hexToRgb b.accent) src)) = true := by
  apply headerRowOk_formatTable
  simp only [copyTable]
  intro hc
  rw [List.map_eq_nil_iff, List.range_eq_nil] at hc
  exact h (List.length_eq_zero.mp hc)

/-- A concrete 2×3 source table with a styled header row. -/
def demoSrcTable : SrcTable :=
  { numCols := 3,
    rows := [[srcTextCell "Name", srcTextCell "Role", srcTextCell "City"],
             [srcTextCell "Ann", srcTextCell "Engineer", srcTextCell "Berlin"]] }

/-- Witness for C5 at a concrete brand and table. -/
theorem c5_witness :
    headerRowOk demoBrand (formatTable demoBrand (copyTable demoBrand.bodyFont
      demoBrand.bodySize (hexToRgb demoBrand.textPrimary)
      (hexToRgb demoBrand.accent) demoSrcTable)) = true :=
  c5_header_row demoBrand demoSrcTable (by decide)

/-- A registry with the two brands `acme` and `globex`. -/
def demoRegistry : List (String × Brand) :=
  [("acme", demoBrand), ("globex", demoBrand)]

/-- Claim C8. A multi-brand batch returns exactly one `(path, quality)` result
per brand whose (lower-cased, stripped) id resolves in the registry: a
failing brand is caught and skipped and the batch continues.  Concretely,
`["acme", "doesnotexist", "globex"]` against a registry holding `acme` and
`globex` yields exactly two results. -/
theorem c8_batch_partial_failure :
    (∀ (reg : List (String × Brand)) (src : List Block) (brands : List String)
        (pfx : String),
      (apply_multiple_brands reg src brands pfx).length =
        brands.countP (fun br =>
          (reg.lookup (pyLower (pyStrip (pyLower br)))).isSome)) ∧
    (apply_multiple_brands demoRegistry []
      ["acme", "doesnotexist", "globex"] "out").length = 2 := by
  constructor
  · intro reg src brands pfx
    induction brands with
    | nil => rfl
    | cons br rest ih =>
      cases hl : reg.lookup (pyLower (pyStrip (pyLower br))) with
      | none =>
        simp [apply_multiple_brands, apply_brand_to_docx, load_brand_config,
          hl, ih, List.countP_cons]
      | some b =>
        simp [apply_multiple_brands, apply_brand_to_docx, load_brand_config,
          hl, ih, List.countP_cons]
  · decide

end Polisher
